import Mathlib

/-!
# Verification of `rampwf/score_types/brier_score.py`

Shallow embedding of the four probabilistic scorers (`BrierScore`,
`BrierSkillScore`, `BrierScoreReliability`, `BrierScoreResolution`).
Numpy float64 values are idealised as rationals (`ℚ`); a numpy result that
is not finite (NaN or ±∞, as produced by an unguarded division by zero
under `np.errstate(divide=...)`) is modelled as `none : Option ℚ`, and a
Python exception (e.g. `ZeroDivisionError` from `1 / float(0)`) as
`Except.error`.  Arrays are lists; the prediction array of shape (n, 2) is
a list of pairs.
-/

namespace Brier

/-- Error raised by a scorer: a dimension mismatch detected by
`check_y_pred_dimensions`, or a Python `ZeroDivisionError`. -/
inductive ScoreErr where
  | dimMismatch : ScoreErr
  | zeroDiv : ScoreErr
deriving DecidableEq, Repr

/-- Numpy fancy indexing `xs[valid_indexes]`: `none` models
`slice(None, None, None)` (the whole array); `some is` models an explicit
integer index array (the claims only use in-bounds indices, where
`filterMap get?` agrees with numpy). -/
def applyIdx (vi : Option (List ℕ)) (xs : List α) : List α :=
  match vi with
  | none => xs
  | some is => is.filterMap (fun i => xs.get? i)

/-- `y_proba[y_true_proba == 1]`: the forecast probabilities whose aligned
true outcome equals 1. -/
def selectPos (y_true_proba y_proba : List ℚ) : List ℚ :=
  ((y_true_proba.zip y_proba).filter (fun q => q.1 == 1)).map (·.2)

/-- Whether `x` falls in bin `i` of `np.histogram` with edges `bins`:
half-open `[bins[i], bins[i+1])`, except the last bin which is closed. -/
def inBin (bins : List ℚ) (i : ℕ) (x : ℚ) : Bool :=
  if i + 2 = bins.length then
    decide (bins.getD i 0 ≤ x) && decide (x ≤ bins.getD (i + 1) 0)
  else
    decide (bins.getD i 0 ≤ x) && decide (x < bins.getD (i + 1) 0)

/-- The number of bins of a histogram with edge list `bins`. -/
def numBins (bins : List ℚ) : ℕ := bins.length - 1

/-- `np.histogram(data, bins=bins)[0]` at bin `i`: the count of data
points falling in bin `i`. -/
def histCount (bins : List ℚ) (data : List ℚ) (i : ℕ) : ℕ :=
  (data.filter (fun x => inBin bins i x)).length

/-- The default bin edges `np.arange(0, 1.2, 0.1)` (12 edges
0, 0.1, …, 1.1), idealised as exact rationals. -/
def defaultBins : List ℚ := (List.range 12).map (fun k => (k : ℚ) / 10)

/-- The `bin_centers` computed at construction of `BrierScoreReliability`
and `BrierScoreResolution`:
`bin_centers = (bins[1:] - bins[:-1]) * 0.05`, then entries above 1 are
set to 1 and entries below 0 are set to 0. -/
def binCenters (bins : List ℚ) : List ℚ :=
  (bins.zip bins.tail).map (fun p =>
    let c := (p.2 - p.1) * (5 / 100)
    if c > 1 then 1 else if c < 0 then 0 else c)

/-- The element-wise squared differences `(y_proba - y_true_proba) ** 2`. -/
def sqDiffs (y_true_proba y_proba : List ℚ) : List ℚ :=
  ((y_proba.zip y_true_proba).map (fun p => (p.1 - p.2) ^ 2))

/-- `BrierScore.__call__`: `np.mean((y_proba - y_true_proba) ** 2)`.
`np.mean` of an empty array is NaN (`none`). -/
def brierScore (y_true_proba y_proba : List ℚ) : Option ℚ :=
  let d := sqDiffs y_true_proba y_proba
  if d.length = 0 then none else some (d.sum / d.length)

/-- `y_true_proba.mean()`, the climatology. -/
def climoMean (y_true_proba : List ℚ) : ℚ :=
  y_true_proba.sum / y_true_proba.length

/-- The reference (climatological) variance
`bs_c = np.mean((y_true_proba.mean() - y_true_proba) ** 2)` used by
`BrierSkillScore.__call__`. -/
def refVariance (y_true_proba : List ℚ) : ℚ :=
  ((y_true_proba.map (fun y => (climoMean y_true_proba - y) ^ 2)).sum) /
    y_true_proba.length

/-- `BrierSkillScore.__call__`: `1 - bs / bs_c`.  A NaN mean (empty
input) or a division by a zero `bs_c` produces a non-finite numpy value,
modelled as `none`. -/
def brierSkillScore (y_true_proba y_proba : List ℚ) : Option ℚ :=
  match brierScore y_true_proba y_proba with
  | none => none
  | some bs =>
      if y_true_proba.length = 0 then none
      else if refVariance y_true_proba = 0 then none
      else some (1 - bs / refVariance y_true_proba)

/-- The per-bin summands of `BrierScoreReliability.__call__`:
`fore_freq * (bin_centers - pos_obs_freq / fore_freq) ** 2`.
A bin with zero forecasts gives `0/0 = NaN` and `0 * NaN = NaN`,
modelled as `none`. -/
def relTerms (bins y_true_proba y_proba : List ℚ) : List (Option ℚ) :=
  (List.range (numBins bins)).map (fun i =>
    let f := histCount bins y_proba i
    let p := histCount bins (selectPos y_true_proba y_proba) i
    if f = 0 then none
    else some ((f : ℚ) * (((binCenters bins).getD i 0) - (p : ℚ) / f) ^ 2))

/-- `np.nansum`: sums the non-NaN entries, treating NaN as absent. -/
def nansum (l : List (Option ℚ)) : ℚ := (l.filterMap id).sum

/-- `BrierScoreReliability.__call__`.  On an empty `y_proba` the Python
expression `1 / float(y_proba.size)` raises `ZeroDivisionError`. -/
def brierScoreReliability (bins y_true_proba y_proba : List ℚ) :
    Except ScoreErr ℚ :=
  if y_proba.length = 0 then .error .zeroDiv
  else .ok ((1 / (y_proba.length : ℚ)) * nansum (relTerms bins y_true_proba y_proba))

/-- The per-bin summands of `BrierScoreResolution.__call__`:
`fore_freq * (pos_obs_rel_freq - climo) ** 2`, with empty bins NaN. -/
def resTerms (bins y_true_proba y_proba : List ℚ) : List (Option ℚ) :=
  (List.range (numBins bins)).map (fun i =>
    let f := histCount bins y_proba i
    let p := histCount bins (selectPos y_true_proba y_proba) i
    if f = 0 then none
    else some ((f : ℚ) * ((p : ℚ) / f - climoMean y_true_proba) ^ 2))

/-- `unc = climo * (1 - climo)`. -/
def uncertainty (y_true_proba : List ℚ) : ℚ :=
  climoMean y_true_proba * (1 - climoMean y_true_proba)

/-- `BrierScoreResolution.__call__`: `score / unc` where
`score = 1 / float(y_proba.size) * np.nansum(...)`.  An empty `y_proba`
raises `ZeroDivisionError`; an empty `y_true_proba` makes `climo` NaN and
the final value NaN (`some` is dropped); a zero `unc` makes `score / unc`
non-finite (`none`). -/
def brierScoreResolution (bins y_true_proba y_proba : List ℚ) :
    Except ScoreErr (Option ℚ) :=
  if y_proba.length = 0 then .error .zeroDiv
  else if y_true_proba.length = 0 then .ok none
  else
    let score := (1 / (y_proba.length : ℚ)) * nansum (resTerms bins y_true_proba y_proba)
    if uncertainty y_true_proba = 0 then .ok none
    else .ok (some (score / uncertainty y_true_proba))

/-- Modelled from the spec: `BaseScoreType.check_y_pred_dimensions` is
defined in `rampwf/score_types/base.py`, which is not among the provided
sources.  Per the spec, a dimension mismatch between the true and
predicted arrays after index selection is a hard failure (an exception),
never silently coerced. -/
def check_y_pred_dimensions (y_true_proba y_proba : List ℚ) :
    Except ScoreErr Unit :=
  if y_true_proba.length = y_proba.length then .ok () else .error .dimMismatch

/-- The shared extraction step of every `score_function`:
`y_proba = predictions.y_pred[valid_indexes][:, 1]` and
`y_true_proba = ground_truths.y_pred_label_index[valid_indexes]`. -/
def extract (gt : List ℚ) (pred : List (ℚ × ℚ)) (vi : Option (List ℕ)) :
    List ℚ × List ℚ :=
  (applyIdx vi gt, (applyIdx vi pred).map (·.2))

/-- `BrierScore.score_function`. -/
def scoreFunctionBrier (gt : List ℚ) (pred : List (ℚ × ℚ))
    (vi : Option (List ℕ)) : Except ScoreErr (Option ℚ) :=
  let e := extract gt pred vi
  match check_y_pred_dimensions e.1 e.2 with
  | .error err => .error err
  | .ok _ => .ok (brierScore e.1 e.2)

/-- `BrierSkillScore.score_function`. -/
def scoreFunctionSkill (gt : List ℚ) (pred : List (ℚ × ℚ))
    (vi : Option (List ℕ)) : Except ScoreErr (Option ℚ) :=
  let e := extract gt pred vi
  match check_y_pred_dimensions e.1 e.2 with
  | .error err => .error err
  | .ok _ => .ok (brierSkillScore e.1 e.2)

/-- `BrierScoreReliability.score_function`. -/
def scoreFunctionReliability (bins : List ℚ) (gt : List ℚ)
    (pred : List (ℚ × ℚ)) (vi : Option (List ℕ)) : Except ScoreErr ℚ :=
  let e := extract gt pred vi
  match check_y_pred_dimensions e.1 e.2 with
  | .error err => .error err
  | .ok _ => brierScoreReliability bins e.1 e.2

/-- `BrierScoreResolution.score_function`. -/
def scoreFunctionResolution (bins : List ℚ) (gt : List ℚ)
    (pred : List (ℚ × ℚ)) (vi : Option (List ℕ)) :
    Except ScoreErr (Option ℚ) :=
  let e := extract gt pred vi
  match check_y_pred_dimensions e.1 e.2 with
  | .error err => .error err
  | .ok _ => brierScoreResolution bins e.1 e.2

/-! ## Helper lemmas -/

/-- Indexing every position of a list in order through `filterMap get?`
recovers the list. -/
theorem filterMap_range_get (xs : List α) :
    (List.range xs.length).filterMap (fun i => xs.get? i) = xs := by
  induction xs with
  | nil => simp
  | cons a as ih =>
      rw [List.length_cons, List.range_succ_eq_map, List.filterMap_cons,
        List.filterMap_map]
      simp only [List.get?_cons_zero, Function.comp_def, List.get?_cons_succ]
      rw [ih]

/-- Mapping a binary function over a zip of equal-length lists equals
mapping over positional indices. -/
theorem zip_map_eq_range_map (f : ℚ → ℚ → ℚ) :
    ∀ (xs ys : List ℚ), xs.length = ys.length →
      (xs.zip ys).map (fun p => f p.1 p.2) =
        (List.range xs.length).map (fun i => f (xs.getD i 0) (ys.getD i 0)) := by
  intro xs
  induction xs with
  | nil => intro ys h; simp
  | cons a as ih =>
      intro ys h
      cases ys with
      | nil => simp at h
      | cons b bs =>
          simp only [List.length_cons, Nat.succ_eq_add_one, Nat.add_right_cancel_iff] at h
          rw [List.zip_cons_cons, List.map_cons, List.length_cons,
            List.range_succ_eq_map, List.map_cons, List.map_map]
          simp only [List.getD_cons_zero, Function.comp_def, List.getD_cons_succ]
          rw [ih bs h]

/-- A sum of nonnegative rationals is zero only if every term is zero. -/
theorem sum_zero_all_zero (l : List ℚ) (h : ∀ x ∈ l, 0 ≤ x)
    (hs : l.sum = 0) : ∀ x ∈ l, x = 0 := fun _ hx =>
  List.all_zero_of_le_zero_le_of_sum_eq_zero h hs hx

/-- Equal-length lists whose zipped pairs agree componentwise are equal. -/
theorem eq_of_zip_pairs_eq :
    ∀ (xs ys : List ℚ), xs.length = ys.length →
      (∀ pr ∈ xs.zip ys, pr.1 = pr.2) → xs = ys := by
  intro xs
  induction xs with
  | nil => intro ys h _; cases ys with
      | nil => rfl
      | cons b bs => simp at h
  | cons a as ih =>
      intro ys h hpr
      cases ys with
      | nil => simp at h
      | cons b bs =>
          simp only [List.length_cons, Nat.succ_eq_add_one,
            Nat.add_right_cancel_iff] at h
          have hab : a = b := hpr (a, b) (by simp [List.zip_cons_cons])
          have : as = bs := ih bs h (fun pr hp =>
            hpr pr (by simp [List.zip_cons_cons, hp]))
          rw [hab, this]

/-- `nansum` ignores a NaN entry: erasing it does not change the sum. -/
theorem nansum_eraseIdx :
    ∀ (l : List (Option ℚ)) (i : ℕ), l[i]? = some none →
      nansum (l.eraseIdx i) = nansum l := by
  intro l
  induction l with
  | nil => intro i h; simp at h
  | cons a as ih =>
      intro i h
      cases i with
      | zero =>
          simp only [List.getElem?_cons_zero, Option.some_inj] at h
          simp [nansum, List.eraseIdx, h]
      | succ j =>
          simp only [List.getElem?_cons_succ] at h
          simp only [List.eraseIdx_cons_succ, nansum]
          cases a with
          | none => simpa [nansum] using ih j h
          | some q =>
              simp only [List.filterMap_cons, id_def, List.sum_cons]
              have := ih j h
              simp only [nansum] at this
              rw [this]

/-- `nansum` of a list whose entries are all NaN or zero is zero. -/
theorem nansum_all_zero (l : List (Option ℚ))
    (h : ∀ x ∈ l, x = none ∨ x = some 0) : nansum l = 0 := by
  refine List.sum_eq_zero (fun q hq => ?_)
  rcases List.mem_filterMap.mp hq with ⟨x, hx, hxq⟩
  rcases h x hx with h0 | h0 <;> rw [h0] at hxq
  · simp at hxq
  · simp only [id_def, Option.some_inj] at hxq
    exact hxq.symm

/-- The squared-difference array expressed by positional indexing. -/
theorem sqDiffs_eq_range_map (yt yp : List ℚ) (hlen : yt.length = yp.length) :
    sqDiffs yt yp =
      (List.range yp.length).map (fun i => (yp.getD i 0 - yt.getD i 0) ^ 2) := by
  have := zip_map_eq_range_map (fun a b => (a - b) ^ 2) yp yt hlen.symm
  simpa [sqDiffs] using this

/-! ## Claims -/

/-- C1: `BrierScore.__call__` on aligned arrays returns the mean over all
instances of `(y_proba - y_true_proba)^2`; on the spec's example
`y_true_proba = [0,0,1,1]`, `y_proba = [0.1,0.2,0.8,0.9]` it returns
`0.025 = 1/40`. -/
theorem brierScore_is_mean_sq_diff (yt yp : List ℚ)
    (hne : yp ≠ []) (hlen : yt.length = yp.length) :
    brierScore yt yp =
      some ((((List.range yp.length).map
        (fun i => (yp.getD i 0 - yt.getD i 0) ^ 2)).sum) / yp.length) ∧
    brierScore [0, 0, 1, 1] [1/10, 2/10, 8/10, 9/10] = some (1/40) := by
  constructor
  · have hd := sqDiffs_eq_range_map yt yp hlen
    have hne' : yp.length ≠ 0 := fun h0 => hne (List.eq_nil_of_length_eq_zero h0)
    simp only [brierScore]
    rw [hd]
    simp only [List.length_map, List.length_range]
    rw [if_neg hne']
  · norm_num [brierScore, sqDiffs]

/-- C1 witness: the general mean formula instantiated on the spec's
example input. -/
theorem brierScore_is_mean_sq_diff_witness :
    brierScore [0, 0, 1, 1] [1/10, 2/10, 8/10, 9/10] = some (1/40) :=
  (brierScore_is_mean_sq_diff [0, 0, 1, 1] [1/10, 2/10, 8/10, 9/10]
    (by decide) rfl).2

/-- C2: the code computes `bin_centers = (bins[1:] - bins[:-1]) * 0.05`
(a scaled bin *width*, 0.005 for every default bin), not a clipped
midpoint of the edges; the center of default bin 1 ( = [0.1, 0.2) ) is
0.005, which lies outside that bin, while the clipped midpoint 0.15 would
lie inside. -/
theorem binCenters_not_midpoints :
    (binCenters defaultBins).getD 1 0 = 1/200 ∧
    defaultBins.getD 1 0 = 1/10 ∧ defaultBins.getD 2 0 = 2/10 ∧
    ¬ (defaultBins.getD 1 0 ≤ (binCenters defaultBins).getD 1 0 ∧
        (binCenters defaultBins).getD 1 0 < defaultBins.getD 2 0) ∧
    (defaultBins.getD 1 0 + defaultBins.getD 2 0) * (1/2) = 3/20 ∧
    defaultBins.getD 1 0 ≤ (3 : ℚ)/20 ∧ (3 : ℚ)/20 < defaultBins.getD 2 0 := by
  norm_num [binCenters, defaultBins, List.range_succ]

/-- C3 counterexample: the default bin edges `np.arange(0, 1.2, 0.1)`
give 12 edges, hence 11 histogram bins, not ten. -/
theorem defaultBins_not_ten_bins : numBins defaultBins ≠ 10 := by decide

/-- C3 (amended): the default configuration has exactly eleven bins, each
of width 0.1, with edges running from 0 to 1.1. -/
theorem defaultBins_eleven_bins :
    numBins defaultBins = 11 ∧
    (∀ i < numBins defaultBins,
      defaultBins.getD (i + 1) 0 - defaultBins.getD i 0 = 1/10) ∧
    defaultBins.getD 0 0 = 0 ∧
    defaultBins.getD (numBins defaultBins) 0 = 11/10 := by
  refine ⟨by decide, ?_, ?_, ?_⟩
  · intro i hi
    have hi11 : i < 11 := by simpa [numBins, defaultBins] using hi
    interval_cases i <;> norm_num [defaultBins, List.range_succ]
  · norm_num [defaultBins, List.range_succ]
  · norm_num [numBins, defaultBins, List.range_succ]

/-- C10: on the empty input the reliability and resolution direct entry
points raise `ZeroDivisionError` (from `1 / float(y_proba.size)`), while
`BrierScore.__call__` returns NaN. -/
theorem empty_input_zero_division (bins : List ℚ) :
    brierScoreReliability bins [] [] = .error .zeroDiv ∧
    brierScoreResolution bins [] [] = .error .zeroDiv ∧
    brierScore [] [] = none :=
  ⟨rfl, rfl, rfl⟩

/-- C4: whenever the extracted true-outcome column and second-class
probability column have different lengths after valid-index selection,
`score_function` of every scorer fails with a dimension mismatch and
never returns a computed score.  (`check_y_pred_dimensions` lives in
`base.py`, outside the provided sources; it is modelled from the spec.) -/
theorem scoreFunction_dim_mismatch (gt : List ℚ) (pred : List (ℚ × ℚ))
    (vi : Option (List ℕ)) (bins : List ℚ)
    (h : (extract gt pred vi).1.length ≠ (extract gt pred vi).2.length) :
    scoreFunctionBrier gt pred vi = .error .dimMismatch ∧
    scoreFunctionSkill gt pred vi = .error .dimMismatch ∧
    scoreFunctionReliability bins gt pred vi = .error .dimMismatch ∧
    scoreFunctionResolution bins gt pred vi = .error .dimMismatch := by
  refine ⟨?_, ?_, ?_, ?_⟩ <;>
    simp [scoreFunctionBrier, scoreFunctionSkill, scoreFunctionReliability,
      scoreFunctionResolution, check_y_pred_dimensions, h]

/-- C4 witness: ground truth of length 4 against predictions of length 3,
with no index selection, makes every scorer fail. -/
theorem scoreFunction_dim_mismatch_witness :
    scoreFunctionBrier [0, 0, 1, 1] [(9/10, 1/10), (8/10, 2/10), (2/10, 8/10)]
        none = .error .dimMismatch ∧
    scoreFunctionSkill [0, 0, 1, 1] [(9/10, 1/10), (8/10, 2/10), (2/10, 8/10)]
        none = .error .dimMismatch ∧
    scoreFunctionReliability defaultBins [0, 0, 1, 1]
        [(9/10, 1/10), (8/10, 2/10), (2/10, 8/10)] none = .error .dimMismatch ∧
    scoreFunctionResolution defaultBins [0, 0, 1, 1]
        [(9/10, 1/10), (8/10, 2/10), (2/10, 8/10)] none = .error .dimMismatch :=
  scoreFunction_dim_mismatch [0, 0, 1, 1]
    [(9/10, 1/10), (8/10, 2/10), (2/10, 8/10)] none defaultBins (by decide)

/-- C6: when all ground-truth outcomes are identical, the reference
variance `bs_c` is zero and the unguarded division `bs / bs_c` in
`BrierSkillScore.__call__` makes the result non-finite (`none`), per the
zero-division convention. -/
theorem skillScore_zero_refVariance (yt yp : List ℚ) (c : ℚ)
    (hne : yt ≠ []) (hlen : yp.length = yt.length)
    (hall : ∀ y ∈ yt, y = c) :
    refVariance yt = 0 ∧ brierSkillScore yt yp = none := by
  have hlt : yt.length ≠ 0 := fun h0 => hne (List.eq_nil_of_length_eq_zero h0)
  have hsum : yt.sum = yt.length • c := List.sum_eq_card_nsmul yt c hall
  have hmean : climoMean yt = c := by
    rw [climoMean, hsum, nsmul_eq_mul, mul_comm, mul_div_assoc, div_self
      (by exact_mod_cast hlt), mul_one]
  have hvar : refVariance yt = 0 := by
    rw [refVariance]
    have : yt.map (fun y => (climoMean yt - y) ^ 2) = yt.map (fun _ => 0) := by
      refine List.map_congr_left (fun y hy => ?_)
      rw [hmean, hall y hy, sub_self]
      ring
    rw [this]
    simp
  refine ⟨hvar, ?_⟩
  have hbs : ∃ bs, brierScore yt yp = some bs := by
    have hdlen : (sqDiffs yt yp).length = yt.length := by
      simp [sqDiffs, List.length_zip, hlen]
    refine ⟨(sqDiffs yt yp).sum / (sqDiffs yt yp).length, ?_⟩
    simp only [brierScore]
    rw [if_neg (by rw [hdlen]; exact hlt)]
  rcases hbs with ⟨bs, hbs⟩
  simp [brierSkillScore, hbs, hlt, hvar]

/-- C6 witness: all outcomes equal to 1. -/
theorem skillScore_zero_refVariance_witness :
    refVariance [1, 1, 1] = 0 ∧
    brierSkillScore [1, 1, 1] [1/2, 1/2, 1/2] = none :=
  skillScore_zero_refVariance [1, 1, 1] [1/2, 1/2, 1/2] 1
    (by decide) rfl (by decide)

/-- C7: for aligned inputs, `score_function` with `valid_indexes = None`
returns the same value as with an explicit index list covering all
positions in order, for every scorer. -/
theorem scoreFunction_none_eq_full_range (gt : List ℚ) (pred : List (ℚ × ℚ))
    (h : gt.length = pred.length) :
    scoreFunctionBrier gt pred none =
      scoreFunctionBrier gt pred (some (List.range gt.length)) ∧
    scoreFunctionSkill gt pred none =
      scoreFunctionSkill gt pred (some (List.range gt.length)) ∧
    (∀ bins, scoreFunctionReliability bins gt pred none =
      scoreFunctionReliability bins gt pred (some (List.range gt.length))) ∧
    (∀ bins, scoreFunctionResolution bins gt pred none =
      scoreFunctionResolution bins gt pred (some (List.range gt.length))) := by
  have hex : extract gt pred (some (List.range gt.length)) =
      extract gt pred none := by
    simp only [extract, applyIdx]
    rw [filterMap_range_get gt, h, filterMap_range_get pred]
  refine ⟨?_, ?_, fun bins => ?_, fun bins => ?_⟩ <;>
    simp only [scoreFunctionBrier, scoreFunctionSkill,
      scoreFunctionReliability, scoreFunctionResolution, hex]

/-- C7 witness: a two-element input scored with `None` and with the
explicit full index list `[0, 1]`. -/
theorem scoreFunction_none_eq_full_range_witness :
    scoreFunctionBrier [0, 1] [(1/2, 1/2), (3/10, 7/10)] none =
      scoreFunctionBrier [0, 1] [(1/2, 1/2), (3/10, 7/10)]
        (some (List.range 2)) ∧
    scoreFunctionSkill [0, 1] [(1/2, 1/2), (3/10, 7/10)] none =
      scoreFunctionSkill [0, 1] [(1/2, 1/2), (3/10, 7/10)]
        (some (List.range 2)) ∧
    (∀ bins, scoreFunctionReliability bins [0, 1] [(1/2, 1/2), (3/10, 7/10)]
        none =
      scoreFunctionReliability bins [0, 1] [(1/2, 1/2), (3/10, 7/10)]
        (some (List.range 2))) ∧
    (∀ bins, scoreFunctionResolution bins [0, 1] [(1/2, 1/2), (3/10, 7/10)]
        none =
      scoreFunctionResolution bins [0, 1] [(1/2, 1/2), (3/10, 7/10)]
        (some (List.range 2))) :=
  scoreFunction_none_eq_full_range [0, 1] [(1/2, 1/2), (3/10, 7/10)] rfl

/-- C5: a bin with zero forecasts has a NaN observed relative frequency
(its summand is NaN), contributes nothing to the aggregate `nansum`
(erasing it leaves the sum unchanged), and does not make the reliability
or resolution call fail on a non-empty input. -/
theorem empty_bin_nan_excluded (bins yt yp : List ℚ) (i : ℕ)
    (hne : yp ≠ []) (hi : i < numBins bins)
    (hf : histCount bins yp i = 0) :
    (relTerms bins yt yp)[i]? = some none ∧
    (resTerms bins yt yp)[i]? = some none ∧
    nansum ((relTerms bins yt yp).eraseIdx i) = nansum (relTerms bins yt yp) ∧
    nansum ((resTerms bins yt yp).eraseIdx i) = nansum (resTerms bins yt yp) ∧
    (brierScoreReliability bins yt yp).isOk = true ∧
    (brierScoreResolution bins yt yp).isOk = true := by
  have hlen0 : yp.length ≠ 0 := fun h0 => hne (List.eq_nil_of_length_eq_zero h0)
  have h1 : (relTerms bins yt yp)[i]? = some none := by
    simp [relTerms, List.getElem?_range, hi, hf]
  have h2 : (resTerms bins yt yp)[i]? = some none := by
    simp [resTerms, List.getElem?_range, hi, hf]
  refine ⟨h1, h2, nansum_eraseIdx _ i h1, nansum_eraseIdx _ i h2, ?_, ?_⟩
  · simp only [brierScoreReliability, if_neg hlen0]
    rfl
  · simp only [brierScoreResolution, if_neg hlen0]
    split
    · rfl
    · split
      · rfl
      · rfl

/-- C5 witness: with the default bins, a single forecast of 0.5 leaves
bin 0 ( = [0, 0.1) ) empty. -/
theorem empty_bin_nan_excluded_witness :
    (relTerms defaultBins [1] [1/2])[0]? = some none ∧
    (resTerms defaultBins [1] [1/2])[0]? = some none ∧
    nansum ((relTerms defaultBins [1] [1/2]).eraseIdx 0) =
      nansum (relTerms defaultBins [1] [1/2]) ∧
    nansum ((resTerms defaultBins [1] [1/2]).eraseIdx 0) =
      nansum (resTerms defaultBins [1] [1/2]) ∧
    (brierScoreReliability defaultBins [1] [1/2]).isOk = true ∧
    (brierScoreResolution defaultBins [1] [1/2]).isOk = true :=
  empty_bin_nan_excluded defaultBins [1] [1/2] 0 (by decide)
    (by decide)
    (by norm_num [histCount, inBin, defaultBins, List.range_succ, List.filter])

/-- C9: when climatology is strictly between 0 and 1 and every non-empty
bin's observed relative frequency equals the climatology,
`BrierScoreResolution.__call__` returns 0. -/
theorem resolution_zero_no_discrimination (bins yt yp : List ℚ)
    (hne : yp ≠ []) (hc0 : 0 < climoMean yt) (hc1 : climoMean yt < 1)
    (hbins : ∀ i < numBins bins, histCount bins yp i ≠ 0 →
      (histCount bins (selectPos yt yp) i : ℚ) / histCount bins yp i =
        climoMean yt) :
    brierScoreResolution bins yt yp = .ok (some 0) := by
  have hyp0 : yp.length ≠ 0 := fun h0 => hne (List.eq_nil_of_length_eq_zero h0)
  have hyt0 : yt.length ≠ 0 := by
    intro h0
    rw [climoMean, h0] at hc0
    simp at hc0
  have hterms : ∀ x ∈ resTerms bins yt yp, x = none ∨ x = some 0 := by
    intro x hx
    simp only [resTerms, List.mem_map, List.mem_range] at hx
    rcases hx with ⟨i, hi, hgi⟩
    by_cases hf : histCount bins yp i = 0
    · left; rw [← hgi]; simp [hf]
    · right; rw [← hgi]
      simp only [if_neg hf]
      rw [hbins i hi hf, sub_self]
      norm_num
  have hsum : nansum (resTerms bins yt yp) = 0 := nansum_all_zero _ hterms
  have hunc : uncertainty yt ≠ 0 :=
    ne_of_gt (mul_pos hc0 (by linarith))
  simp only [brierScoreResolution, if_neg hyp0, if_neg hyt0, hsum, mul_zero,
    if_neg hunc, zero_div]

/-- C9 witness: outcomes `[1, 0]` and forecasts `[0.5, 0.5]` with the
default bins: the only non-empty bin has relative frequency 1/2, equal
to the climatology 1/2; resolution is 0. -/
theorem resolution_zero_no_discrimination_witness :
    brierScoreResolution defaultBins [1, 0] [1/2, 1/2] = .ok (some 0) :=
  resolution_zero_no_discrimination defaultBins [1, 0] [1/2, 1/2]
    (by decide)
    (by norm_num [climoMean])
    (by norm_num [climoMean])
    (by
      intro i hi
      have hi11 : i < 11 := by simpa [numBins, defaultBins] using hi
      interval_cases i <;>
        norm_num [histCount, inBin, selectPos, climoMean, defaultBins,
          List.range_succ, List.filter])

/-- C8: for non-empty aligned inputs with forecasts in [0,1] and
outcomes in {0,1}, the Brier score lies in [0,1] and is 0 exactly when
every prediction equals its outcome. -/
theorem brierScore_bounds (yt yp : List ℚ)
    (hne : yp ≠ []) (hlen : yt.length = yp.length)
    (hp : ∀ p ∈ yp, 0 ≤ p ∧ p ≤ 1) (hy : ∀ y ∈ yt, y = 0 ∨ y = 1) :
    ∃ s, brierScore yt yp = some s ∧ 0 ≤ s ∧ s ≤ 1 ∧ (s = 0 ↔ yp = yt) := by
  have hlen0 : yp.length ≠ 0 := fun h0 => hne (List.eq_nil_of_length_eq_zero h0)
  have hdlen : (sqDiffs yt yp).length = yp.length := by
    simp [sqDiffs, List.length_zip, hlen]
  have hdne : (sqDiffs yt yp).length ≠ 0 := by rw [hdlen]; exact hlen0
  have hmem : ∀ x ∈ sqDiffs yt yp, 0 ≤ x ∧ x ≤ 1 := by
    intro x hx
    simp only [sqDiffs, List.mem_map] at hx
    rcases hx with ⟨⟨a, b⟩, hpr, rfl⟩
    have hab := List.of_mem_zip hpr
    have ha := hp a hab.1
    refine ⟨sq_nonneg _, ?_⟩
    rcases hy b hab.2 with hb | hb <;> subst hb <;> dsimp only <;>
      nlinarith [ha.1, ha.2]
  have hsum0 : 0 ≤ (sqDiffs yt yp).sum :=
    List.sum_nonneg (fun x hx => (hmem x hx).1)
  have hsum1 : (sqDiffs yt yp).sum ≤ ((sqDiffs yt yp).length : ℚ) := by
    have := List.sum_le_card_nsmul (sqDiffs yt yp) 1
      (fun x hx => (hmem x hx).2)
    simpa using this
  have hpos : (0 : ℚ) < ((sqDiffs yt yp).length : ℚ) := by
    exact_mod_cast Nat.pos_of_ne_zero hdne
  refine ⟨(sqDiffs yt yp).sum / ((sqDiffs yt yp).length : ℚ), ?_, ?_, ?_, ?_⟩
  · simp only [brierScore]
    rw [if_neg hdne]
  · exact div_nonneg hsum0 (le_of_lt hpos)
  · exact (div_le_one hpos).mpr hsum1
  · constructor
    · intro hs0
      have hdsum : (sqDiffs yt yp).sum = 0 := by
        rcases div_eq_zero_iff.mp hs0 with h | h
        · exact h
        · exact absurd h (ne_of_gt hpos)
      have hall0 := sum_zero_all_zero (sqDiffs yt yp)
        (fun x hx => (hmem x hx).1) hdsum
      refine eq_of_zip_pairs_eq yp yt hlen.symm (fun pr hpr => ?_)
      have hx : (pr.1 - pr.2) ^ 2 ∈ sqDiffs yt yp := by
        simp only [sqDiffs]
        exact List.mem_map_of_mem _ hpr
      have := hall0 _ hx
      have := sq_eq_zero_iff.mp this
      linarith [this]
    · intro heq
      subst heq
      have hzero : sqDiffs yp yp =
          (List.range yp.length).map (fun _ => (0:ℚ)) := by
        rw [sqDiffs_eq_range_map yp yp rfl]
        exact List.map_congr_left (fun i _ => by ring)
      rw [hzero]
      simp

/-- C8 witness: perfect predictions `[0, 1]` on outcomes `[0, 1]` give a
score of 0, within bounds. -/
theorem brierScore_bounds_witness :
    ∃ s, brierScore [0, 1] [0, 1] = some s ∧ 0 ≤ s ∧ s ≤ 1 ∧
      (s = 0 ↔ ([0, 1] : List ℚ) = [0, 1]) :=
  brierScore_bounds [0, 1] [0, 1] (by decide) rfl
    (by
      intro p hp
      rcases List.mem_cons.mp hp with h | h
      · subst h; norm_num
      · rcases List.mem_cons.mp h with h1 | h1
        · subst h1; norm_num
        · simp at h1)
    (by
      intro y hy
      rcases List.mem_cons.mp hy with h | h
      · exact Or.inl h
      · rcases List.mem_cons.mp h with h1 | h1
        · exact Or.inr h1
        · simp at h1)

end Brier
